import Mathlib

/-!
Verification development for the Nurl command-line HTTP client (src/index.js).

JavaScript strings are modelled as lists of characters (`Str`), the plain
objects used as header/query mappings as insertion-ordered association lists,
and JavaScript numbers relevant to the `--timeout` option as `JsNum`
(undefined / NaN / a rational).  Node collaborators (the WHATWG URL parser,
the filesystem, `JSON.parse`) are passed in as explicit function parameters
or modelled where noted.
-/

namespace Nurl

/-- A JavaScript string, modelled as its sequence of characters. -/
abbrev Str := List Char

/-- A JavaScript number as it reaches the timeout check: `undefined` when the
option was omitted, `NaN` when yargs failed to parse the flag value as a
number, or a finite numeric value. -/
inductive JsNum where
  | undef
  | nan
  | num (q : Rat)
deriving DecidableEq, Repr

/-- The global `isNaN` coercion test: `isNaN(undefined)` and `isNaN(NaN)` are
both true, a finite number is not NaN. -/
def jsIsNaN : JsNum → Bool
  | .undef => true
  | .nan => true
  | .num _ => false

/-- JavaScript truthiness of an optional string value: `undefined` and the
empty string are falsy, every other string is truthy. -/
def truthy : Option Str → Bool
  | none => false
  | some s => !s.isEmpty

/-- Insertion-ordered string-to-string mapping, standing for the plain
objects `parsedHeaders` / `parsedQueries` built in src/index.js. -/
abbrev Map := List (Str × Str)

/-- Property read `m[k]` on the object. -/
def getKey (k : Str) : Map → Option Str
  | [] => none
  | (k', v) :: rest => if k' = k then some v else getKey k rest

/-- Property write `m[k] = v`: an existing key keeps its original insertion
position (JavaScript object semantics); a new key is appended. -/
def setKey (k v : Str) : Map → Map
  | [] => [(k, v)]
  | (k', v') :: rest => if k' = k then (k, v) :: rest else (k', v') :: setKey k v rest

/-- Split a string at the first occurrence of `sep`
(`indexOf` + two `substring` calls in the source); `none` when `sep` is
absent (`indexOf === -1`). -/
def splitFirst (sep : Char) : Str → Option (Str × Str)
  | [] => none
  | c :: rest =>
    if c = sep then some ([], rest)
    else match splitFirst sep rest with
      | none => none
      | some (a, b) => some (c :: a, b)

/-- JavaScript `s.split('&')`: empty segments are kept and the empty string
splits to one empty segment. -/
def splitAmp : Str → List Str
  | [] => [[]]
  | c :: rest =>
    match splitAmp rest with
    | [] => [[c]]
    | s :: ss => if c = '&' then [] :: s :: ss else (c :: s) :: ss

/-- `key.toLowerCase()` (the keys in play are ASCII). -/
def toLowerStr (s : Str) : Str := s.map Char.toLower

/-- Warning text of `logWARN('Invalid header ' + header)`. -/
def warnInvalidHeader (h : Str) : Str := "Invalid header ".data ++ h

/-- Warning text of `logWARN('Overwriting header key for ' + key)`. -/
def warnOverwriteHeader (k : Str) : Str := "Overwriting header key for ".data ++ k

/-- Warning text of `logWARN('Invalid query parameter ' + part)`. -/
def warnInvalidQuery (p : Str) : Str := "Invalid query parameter ".data ++ p

/-- Warning text of `logWARN('Overwriting query key for ' + key)`. -/
def warnOverwriteQuery (k : Str) : Str := "Overwriting query key for ".data ++ k

/-- Warning text of `logWARN('Invalid urlencoded body!')`. -/
def warnInvalidUrlencoded : Str := "Invalid urlencoded body!".data

/-- Warning text of `logWARN('Invalid JSON body')`. -/
def warnInvalidJson : Str := "Invalid JSON body".data

/-- One iteration of the `headers` coerce loop: split at the first colon
(skip with a warning when there is none), lowercase the key, warn when the
key is already present, then store the value. -/
def headerStep (acc : Map × List Str) (h : Str) : Map × List Str :=
  match splitFirst ':' h with
  | none => (acc.1, acc.2 ++ [warnInvalidHeader h])
  | some (k0, v) =>
    let k := toLowerStr k0
    if (getKey k acc.1).isSome then
      (setKey k v acc.1, acc.2 ++ [warnOverwriteHeader k])
    else
      (setKey k v acc.1, acc.2)

/-- The `headers` coerce of `setupYargs`: parsed mapping plus the warnings
it printed, in order. -/
def parseHeaders (hs : List Str) : Map × List Str :=
  hs.foldl headerStep ([], [])

/-- One iteration of the inner `queries` coerce loop over one `&`-segment. -/
def queryStep (acc : Map × List Str) (part : Str) : Map × List Str :=
  match splitFirst '=' part with
  | none => (acc.1, acc.2 ++ [warnInvalidQuery part])
  | some (k, v) =>
    if (getKey k acc.1).isSome then
      (setKey k v acc.1, acc.2 ++ [warnOverwriteQuery k])
    else
      (setKey k v acc.1, acc.2)

/-- The `queries` coerce of `setupYargs`: each argument is split at `&`, and
each segment handled by `queryStep`. -/
def parseQueries (qs : List Str) : Map × List Str :=
  qs.foldl (fun acc q => (splitAmp q).foldl queryStep acc) ([], [])

/-- A character of the class `[\w-%]` from `urlencodedRegex`
(ASCII word character, hyphen, or percent sign). -/
def isUrlTokenChar (c : Char) : Bool :=
  c.isAlphanum || c = '_' || c = '-' || c = '%'

/-- One `key=value` group of `urlencodedRegex`: a nonempty run of
`[\w-%]` characters, `=`, then a possibly empty run of `[\w-%]` characters. -/
def segOk (seg : Str) : Bool :=
  match splitFirst '=' seg with
  | none => false
  | some (k, v) => !k.isEmpty && k.all isUrlTokenChar && v.all isUrlTokenChar

/-- `urlencodedRegex.test(s)` for
`/^([\w-%]+=[\w-%]*)(&[\w-%]+=[\w-%]*)*$/`: since neither `&` nor `=` is in
the character class, the anchored regex accepts exactly the strings whose
`&`-separated segments each match one group. -/
def matchesUrlencoded (s : Str) : Bool :=
  (splitAmp s).all segOk

/-- The result of `new URL(...)` as used by the program: only the hostname and
the pathname are ever read; `search` records the query part the URL parser
separated off. -/
structure Url where
  hostname : Str
  pathname : Str
  search : Str
deriving DecidableEq, Repr

/-- Modelled from the spec: the external URL parser decomposes the
path-and-query portion of the URL, with the path component stopping at the
first question mark (`url (parsed, with hostname/path/query)`). -/
def urlPathname (pq : Str) : Str := pq.takeWhile (fun c => c ≠ '?')

/-- Modelled from the spec: the remainder of the path-and-query portion from
the first question mark on — the part the URL parser puts in the query, not
the pathname. -/
def urlSearch (pq : Str) : Str := pq.dropWhile (fun c => c ≠ '?')

/-- The fatal validation failures of §7 of the specification, as raised by
the `check` callbacks of `setupYargs`. -/
inductive Err where
  | invalidArgument
  | conflictingOptions
  | fileAccessError
deriving DecidableEq, Repr

/-- The parsed command line as yargs hands it to the checks and to `main`:
note that there is no `body` member — no option of that name is declared. -/
structure Argv where
  positional : List Str
  method : Str
  headers : List Str
  queries : List Str
  data : Option Str
  json : Option Str
  file : Option Str
  timeout : JsNum
deriving DecidableEq, Repr

/-- The first `check` of `setupYargs`: exactly one positional argument that
`new URL` accepts, else `InvalidArgument`. -/
def urlCheck (pu : Str → Option Url) (positional : List Str) : Except Err Unit :=
  match positional with
  | [a] =>
    match pu a with
    | some _ => .ok ()
    | none => .error .invalidArgument
  | _ => .error .invalidArgument

/-- The `check` attached to the `data` option: conflict with `json` or `file`
is fatal; a value not matching `urlencodedRegex` only produces a warning. -/
def dataCheck (data json file : Option Str) : Except Err (List Str) :=
  if data.isSome ∧ (json.isSome ∨ file.isSome) then
    .error .conflictingOptions
  else
    match data with
    | some d => if matchesUrlencoded d then .ok [] else .ok [warnInvalidUrlencoded]
    | none => .ok []

/-- The `check` attached to the `json` option; `jsonOk` is the external
`JSON.parse` succeeding on the string. -/
def jsonCheck (jsonOk : Str → Bool) (data json file : Option Str) : Except Err (List Str) :=
  if json.isSome ∧ (data.isSome ∨ file.isSome) then
    .error .conflictingOptions
  else
    match json with
    | some j => if jsonOk j then .ok [] else .ok [warnInvalidJson]
    | none => .ok []

/-- The `check` attached to the `file` option; `rf` is the filesystem's
`readFileSync`, returning `none` when the read throws. -/
def fileCheck (rf : Str → Option (List Nat)) (data json file : Option Str) :
    Except Err Unit :=
  if file.isSome ∧ (data.isSome ∨ json.isSome) then
    .error .conflictingOptions
  else
    match file with
    | some f =>
      match rf f with
      | some _ => .ok ()
      | none => .error .fileAccessError
    | none => .ok ()

/-- The `check` attached to the `timeout` option: `if (isNaN(timeout)) throw`.
When the option is omitted the destructured `timeout` is `undefined`, and
`isNaN(undefined)` is true. -/
def timeoutCheck (t : JsNum) : Except Err Unit :=
  if jsIsNaN t then .error .invalidArgument else .ok ()

/-- All `check` callbacks of `setupYargs`, in registration order, returning
the non-fatal warnings they printed. -/
def runChecks (pu : Str → Option Url) (rf : Str → Option (List Nat))
    (jsonOk : Str → Bool) (argv : Argv) : Except Err (List Str) :=
  match urlCheck pu argv.positional with
  | .error e => .error e
  | .ok _ =>
    match dataCheck argv.data argv.json argv.file with
    | .error e => .error e
    | .ok w1 =>
      match jsonCheck jsonOk argv.data argv.json argv.file with
      | .error e => .error e
      | .ok w2 =>
        match fileCheck rf argv.data argv.json argv.file with
        | .error e => .error e
        | .ok _ =>
          match timeoutCheck argv.timeout with
          | .error e => .error e
          | .ok _ => .ok (w1 ++ w2)

/-- The bytes a request body write puts on the wire: nothing, a string
(written in UTF-8), or a file's raw buffer. -/
inductive Payload where
  | noBody
  | str (s : Str)
  | bytes (b : List Nat)
deriving DecidableEq, Repr

/-- UTF-8 encoding of one character. -/
def charUtf8 (c : Char) : List Nat :=
  let v := c.toNat
  if v < 0x80 then [v]
  else if v < 0x800 then
    [0xC0 ||| (v >>> 6), 0x80 ||| (v &&& 0x3F)]
  else if v < 0x10000 then
    [0xE0 ||| (v >>> 12), 0x80 ||| ((v >>> 6) &&& 0x3F), 0x80 ||| (v &&& 0x3F)]
  else
    [0xF0 ||| (v >>> 18), 0x80 ||| ((v >>> 12) &&& 0x3F),
      0x80 ||| ((v >>> 6) &&& 0x3F), 0x80 ||| (v &&& 0x3F)]

/-- UTF-8 encoding of a string (what `request.write` sends for a string and
what `Buffer.byteLength` measures). -/
def utf8Bytes (s : Str) : List Nat := (s.map charUtf8).flatten

/-- The bytes of a payload as they go on the wire. -/
def payloadBytes : Payload → List Nat
  | .noBody => []
  | .str s => utf8Bytes s
  | .bytes b => b

/-- `Buffer.byteLength` of the serialized body behind a payload. -/
def payloadByteLen (p : Payload) : Nat := (payloadBytes p).length

/-- Decimal rendering of a number assigned into the headers object. -/
def natToStr (n : Nat) : Str := (toString n).data

def contentTypeKey : Str := "content-type".data

def contentLengthKey : Str := "content-length".data

/-- `if (headers[k] === undefined) headers[k] = v`. -/
def setDefault (k v : Str) (m : Map) : Map :=
  if (getKey k m).isSome then m else setKey k v m

/-- `if (headers['content-length'] === undefined && method !== 'GET')
headers['content-length'] = Buffer.byteLength(body)`. -/
def setDefaultCL (method : Str) (n : Nat) (m : Map) : Map :=
  if (getKey contentLengthKey m).isSome = false ∧ method ≠ "GET".data then
    setKey contentLengthKey (natToStr n) m
  else m

/-- The request path built in `sendRequest`.  `queries` is the plain object
produced by the coerce, whose `length` property is `undefined`, so the guard
`queries.length !== 0` holds and the branch always runs: a `?` is appended,
every `key=value` pair is appended with a trailing `&`, and `substring`
removes the final character (the `?` itself when the mapping is empty). -/
def buildPath (pathname : Str) (queries : Map) : Str :=
  (queries.foldl (fun acc kv => acc ++ kv.1 ++ '=' :: kv.2 ++ ['&'])
    (pathname ++ ['?'])).dropLast

/-- The single HTTP request `http.request` is given, together with the body
writes performed before `request.end()`. -/
structure Request where
  hostname : Str
  port : Str
  path : Str
  headers : Map
  method : Str
  timeout : JsNum
  payload : Payload
deriving DecidableEq, Repr

def mkRequest (u : Url) (method : Str) (h : Map) (queries : Map)
    (timeout : JsNum) (p : Payload) : Request :=
  { hostname := u.hostname
    port := "80".data
    path := buildPath u.pathname queries
    headers := h
    method := method
    timeout := timeout
    payload := p }

/-- `sendRequest` of src/index.js: header defaulting per active body source,
path construction, and the issued request with its body write.  The body /
json / file parameters keep the JavaScript truthiness tests of the source;
`rf` is `readFileSync`, and `none` is returned when that read throws (no
request is issued then). -/
def sendRequest (rf : Str → Option (List Nat)) (u : Url) (method : Str)
    (headers0 : Map) (queries : Map) (body json filePath : Option Str)
    (timeout : JsNum) : Option Request :=
  if truthy body then
    let b := body.getD []
    let h := setDefault contentTypeKey "application/x-www-form-urlencoded".data headers0
    let h := setDefaultCL method (utf8Bytes b).length h
    some (mkRequest u method h queries timeout (.str b))
  else if truthy json then
    let j := json.getD []
    let h := setDefault contentTypeKey "application/json".data headers0
    let h := setDefaultCL method (utf8Bytes j).length h
    some (mkRequest u method h queries timeout (.str j))
  else if truthy filePath then
    match rf (filePath.getD []) with
    | none => none
    | some fb =>
      let h := setDefault contentTypeKey "application/octet-stream".data headers0
      let h := setDefaultCL method fb.length h
      some (mkRequest u method h queries timeout (.bytes fb))
  else
    some (mkRequest u method headers0 queries timeout .noBody)

/-- `main` of src/index.js: run the yargs checks, re-parse the URL, coerce
headers and queries, and call `sendRequest`.  The fifth argument of
`sendRequest` is `args.body`; no option named `body` exists, so that value is
always `undefined` (`none` here) — the `--data` string is passed only as the
never-read `data` option.  The result is the issued request (or `none` when
`sendRequest` threw) plus all warnings printed. -/
def runInvocation (pu : Str → Option Url) (rf : Str → Option (List Nat))
    (jsonOk : Str → Bool) (argv : Argv) :
    Except Err (Option Request × List Str) :=
  match runChecks pu rf jsonOk argv with
  | .error e => .error e
  | .ok checkWarns =>
    match argv.positional with
    | [a] =>
      match pu a with
      | some u =>
        let hs := parseHeaders argv.headers
        let qs := parseQueries argv.queries
        .ok (sendRequest rf u argv.method hs.1 qs.1 none argv.json argv.file
              argv.timeout,
          hs.2 ++ qs.2 ++ checkWarns)
      | none => .error .invalidArgument
    | _ => .error .invalidArgument

/-- The response object as the `res.on('end')` renderer reads it.  `res` is
a client-side `http.IncomingMessage`: node's constructor initialises its
`method` property to `null` and only populates it for requests received by
an `http.Server`, never for responses to `http.request` — so for this
program `method` is always `none` (null); the field is kept optional to
model the property as it exists on the object. -/
structure Response where
  method : Option Str
  statusCode : Nat
  statusMessage : Str
  headers : List (Str × Str)
  body : Str
deriving DecidableEq, Repr

/-- String concatenation `': ' + x` on a possibly-null value: JavaScript
renders `null` as the text `null`. -/
def jsNullable : Option Str → Str
  | none => "null".data
  | some s => s

/-- The banner line printed before the response. -/
def banner : Str := "-----------------RESPONSE-------------------".data

/-- The lines printed by the `res.on('end')` handler of `sendRequest`, in
order, with the cosmetic terminal styling stripped: a blank line, the
banner, the method line, the status line, the `HEADERS:` label, one indented
line per response header, and the body line. -/
def renderResponse (r : Response) : List Str :=
  [[], banner,
    "METHOD".data ++ ": ".data ++ jsNullable r.method,
    "STATUS".data ++ ": ".data ++ natToStr r.statusCode ++ " - ".data ++ r.statusMessage,
    "HEADERS".data ++ ": ".data]
  ++ r.headers.map (fun kv => '\t' :: (kv.1 ++ ": ".data ++ kv.2))
  ++ ["BODY".data ++ ": ".data ++ r.body]

/-! ### Mapping lemmas -/

theorem getKey_setKey_self (k v : Str) (m : Map) :
    getKey k (setKey k v m) = some v := by
  induction m with
  | nil => simp [getKey, setKey]
  | cons kv rest ih =>
    by_cases h : kv.1 = k
    · simp [getKey, setKey, h]
    · simp [getKey, setKey, h, ih]

theorem getKey_setKey_ne (k k' v : Str) (m : Map) (h : k' ≠ k) :
    getKey k' (setKey k v m) = getKey k' m := by
  induction m with
  | nil => simp [getKey, setKey, h.symm]
  | cons kv rest ih =>
    by_cases hk : kv.1 = k
    · simp [getKey, setKey, hk, h.symm]
    · by_cases hk' : kv.1 = k'
      · simp [getKey, setKey, hk, hk', h]
      · simp [getKey, setKey, hk, hk', ih]

theorem getKey_setDefault_ne (k k' v : Str) (m : Map) (h : k' ≠ k) :
    getKey k' (setDefault k v m) = getKey k' m := by
  unfold setDefault
  split
  · rfl
  · exact getKey_setKey_ne k k' v m h

theorem getKey_setDefaultCL_ne (k : Str) (method : Str) (n : Nat) (m : Map)
    (h : k ≠ contentLengthKey) :
    getKey k (setDefaultCL method n m) = getKey k m := by
  unfold setDefaultCL
  split
  · exact getKey_setKey_ne contentLengthKey k (natToStr n) m h
  · rfl

theorem contentTypeKey_ne_contentLengthKey : contentTypeKey ≠ contentLengthKey := by
  decide

/-- The `content-length` lookup after the header defaulting both branches of
the source perform: first the `content-type` default, then the guarded
`content-length` default. -/
theorem defaulted_contentLength (h0 : Map) (method ctv : Str) (n : Nat) :
    (method = "GET".data →
      getKey contentLengthKey (setDefaultCL method n (setDefault contentTypeKey ctv h0)) =
        getKey contentLengthKey h0) ∧
    (method ≠ "GET".data → getKey contentLengthKey h0 = none →
      getKey contentLengthKey (setDefaultCL method n (setDefault contentTypeKey ctv h0)) =
        some (natToStr n)) := by
  have hct : getKey contentLengthKey (setDefault contentTypeKey ctv h0) =
      getKey contentLengthKey h0 :=
    getKey_setDefault_ne contentTypeKey contentLengthKey ctv h0
      (fun he => contentTypeKey_ne_contentLengthKey he.symm)
  constructor
  · intro hm
    unfold setDefaultCL
    rw [if_neg (by simp [hm])]
    exact hct
  · intro hm hnone
    unfold setDefaultCL
    rw [if_pos ⟨by simp [hct, hnone], hm⟩]
    exact getKey_setKey_self contentLengthKey (natToStr n) _

/-! ### Concrete fixtures used by closed theorems and witnesses -/

/-- A URL parser oracle accepting exactly `http://x/p`. -/
def puX : Str → Option Url :=
  fun s => if s = "http://x/p".data then some ⟨"x".data, "/p".data, []⟩ else none

/-- A filesystem oracle on which every read throws. -/
def rfNone : Str → Option (List Nat) := fun _ => none

/-- A `JSON.parse` oracle that accepts everything. -/
def joTrue : Str → Bool := fun _ => true

/-- A valid invocation that omits `--timeout` (so the parsed value is
`undefined`). -/
def argvNoTimeout : Argv :=
  { positional := ["http://x/p".data]
    method := "GET".data
    headers := []
    queries := []
    data := none
    json := none
    file := none
    timeout := .undef }

/-- `http://x/p -M POST --timeout 5 --data a=1`: a valid invocation whose
active body source is the urlencoded `data` string. -/
def argvData : Argv :=
  { positional := ["http://x/p".data]
    method := "POST".data
    headers := []
    queries := []
    data := some "a=1".data
    json := none
    file := none
    timeout := .num 5 }

/-- `http://x/p --timeout 5 --data a=1 --json 1`: both `data` and `json`
supplied. -/
def argvConflict : Argv :=
  { positional := ["http://x/p".data]
    method := "GET".data
    headers := []
    queries := []
    data := some "a=1".data
    json := some "1".data
    file := none
    timeout := .num 5 }

/-- The 200 OK response of the end-to-end scenario: one header and the body
`hello`.  The exchange was a GET request, but `method` is `none` because a
client-side `IncomingMessage` always carries `method = null`. -/
def resHello : Response :=
  { method := none
    statusCode := 200
    statusMessage := "OK".data
    headers := [("content-type".data, "text/plain".data)]
    body := "hello".data }

/-! ### Claim theorems -/

/-- C1 (code evaluated at the failing input): for an otherwise valid
invocation that merely omits `--timeout`, validation already fails with
`InvalidArgument` — the destructured `timeout` is `undefined` and
`isNaN(undefined)` is true, so the timeout check throws; the claim that an
invocation omitting `--timeout` passes option validation does not hold on
the code. -/
theorem C1_omitted_timeout_rejected :
    runChecks puX rfNone joTrue argvNoTimeout = .error .invalidArgument := by
  rfl

/-- C2 (code evaluated at the failing input): on an invocation whose active
body source is `--data a=1`, the issued request carries no body at all —
`main` passes `args.body` (undefined; no option of that name exists) as the
body parameter of `sendRequest` instead of `args.data`, so nothing is ever
written, contradicting the claim that the urlencoded string is written
before end-of-request. -/
theorem C2_data_body_never_written :
    (runInvocation puX rfNone joTrue argvData).toOption.map
      (fun r => r.1.map Request.payload) = some (some .noBody) := by
  decide

/-- C4 (code evaluated at the failing input): on the completed exchange of
the claim (GET request, 200 OK, one header `content-type: text/plain`, body
`hello`) the renderer does print the banner, the status line, the header
line, and `BODY: hello` in the claimed order — but the method line is
`METHOD: null`, never `METHOD: GET`: line 189 reads `res.method` off the
client-side response object, whose `method` property node leaves `null` for
responses to `http.request`. -/
theorem C4_method_printed_null :
    renderResponse resHello =
      [[], banner, "METHOD: null".data, "STATUS: 200 - OK".data,
        "HEADERS: ".data, "\tcontent-type: text/plain".data,
        "BODY: hello".data] ∧
    ¬ "METHOD: GET".data ∈ renderResponse resHello := by
  constructor
  · decide
  · decide

/-! ### Path-construction lemmas -/

/-- One `key=value` pair as it appears in the request path. -/
def pairStr (kv : Str × Str) : Str := kv.1 ++ ('=' :: kv.2)

/-- The pairs as the loop appends them: each followed by `&`. -/
def flattenAmp : Map → Str
  | [] => []
  | kv :: rest => (pairStr kv ++ ['&']) ++ flattenAmp rest

/-- The pairs joined by `&` with no trailing separator. -/
def joinPairs : Map → Str
  | [] => []
  | [kv] => pairStr kv
  | kv :: rest => pairStr kv ++ ('&' :: joinPairs rest)

theorem buildPath_foldl (q : Map) : ∀ acc : Str,
    q.foldl (fun acc kv => acc ++ kv.1 ++ '=' :: kv.2 ++ ['&']) acc =
      acc ++ flattenAmp q := by
  induction q with
  | nil => intro acc; simp [flattenAmp]
  | cons kv rest ih =>
    intro acc
    rw [List.foldl_cons, ih]
    simp [flattenAmp, pairStr, List.append_assoc]

theorem flattenAmp_eq_joinPairs (q : Map) (h : q ≠ []) :
    flattenAmp q = joinPairs q ++ ['&'] := by
  induction q with
  | nil => exact absurd rfl h
  | cons kv rest ih =>
    cases rest with
    | nil => simp [flattenAmp, joinPairs]
    | cons r rs =>
      show (pairStr kv ++ ['&']) ++ flattenAmp (r :: rs) = _ ++ ['&']
      rw [ih (by simp)]
      show _ = (pairStr kv ++ ('&' :: joinPairs (r :: rs))) ++ ['&']
      simp [List.append_assoc]

theorem buildPath_eq (p : Str) (q : Map) :
    buildPath p q = p ++ (if q = [] then [] else '?' :: joinPairs q) := by
  cases q with
  | nil =>
    simp [buildPath, flattenAmp, List.dropLast_concat]
  | cons kv rest =>
    have hne : kv :: rest ≠ [] := by simp
    rw [buildPath, buildPath_foldl, flattenAmp_eq_joinPairs _ hne, if_neg hne]
    have : (p ++ ['?']) ++ (joinPairs (kv :: rest) ++ ['&']) =
        (p ++ ('?' :: joinPairs (kv :: rest))) ++ ['&'] := by
      simp [List.append_assoc]
    rw [this, List.dropLast_concat]

/-- C10: with an empty query mapping the constructed request path is exactly
the URL's pathname (the speculatively appended `?` is trimmed back off), and
in general the path is the pathname followed, when queries exist, by `?` and
the `key=value` pairs joined by `&` with the trailing separator trimmed —
the path never ends in the appended separator. -/
theorem C10_trailing_separator_trimmed (p : Str) (q : Map) :
    (q = [] → buildPath p q = p) ∧
    buildPath p q = p ++ (if q = [] then [] else '?' :: joinPairs q) := by
  refine ⟨fun hq => ?_, buildPath_eq p q⟩
  rw [buildPath_eq, if_pos hq, List.append_nil]

/-- Witness for C10 at concrete inputs: the empty-mapping hypothesis is
discharged at `q = []`, and a nonempty mapping shows the general shape. -/
theorem C10_witness :
    buildPath "/p".data ([] : Map) = "/p".data ∧
    buildPath "/p".data [("a".data, "1".data)] =
      "/p".data ++ ('?' :: joinPairs [("a".data, "1".data)]) := by
  refine ⟨(C10_trailing_separator_trimmed "/p".data []).1 rfl, ?_⟩
  have h := (C10_trailing_separator_trimmed "/p".data [("a".data, "1".data)]).2
  simpa using h

/-- C9: when the URL argument itself carries a query string and no
`--queries` option is supplied (empty parsed mapping), the path of the
issued request is exactly the URL's pathname — the part of the argument
before the first `?` — and contains no `?` at all, so the embedded query
string never reaches the wire. -/
theorem C9_url_query_discarded (rf : Str → Option (List Nat)) (host raw method : Str)
    (h0 : Map) (t : JsNum) (req : Request)
    (_hq : '?' ∈ raw)
    (hsend : sendRequest rf ⟨host, urlPathname raw, urlSearch raw⟩ method h0 []
      none none none t = some req) :
    req.path = urlPathname raw ∧ ¬ '?' ∈ req.path := by
  have hreq : req = mkRequest ⟨host, urlPathname raw, urlSearch raw⟩ method h0 [] t .noBody := by
    simpa [sendRequest, truthy] using hsend.symm
  have hpath : req.path = urlPathname raw := by
    rw [hreq]
    show buildPath (urlPathname raw) [] = urlPathname raw
    exact (C10_trailing_separator_trimmed _ []).1 rfl
  refine ⟨hpath, ?_⟩
  rw [hpath]
  intro hmem
  have := List.mem_takeWhile_imp hmem
  simp at this

/-- Witness for C9: URL argument path-and-query `/p?x=1`; the sent path is
`/p` and contains no question mark. -/
theorem C9_witness :
    '?' ∈ "/p?x=1".data ∧
    sendRequest rfNone ⟨"x".data, urlPathname "/p?x=1".data, urlSearch "/p?x=1".data⟩
      "GET".data [] [] none none none (.num 5) =
      some (mkRequest ⟨"x".data, "/p".data, "?x=1".data⟩ "GET".data [] [] (.num 5) .noBody) ∧
    ((mkRequest ⟨"x".data, "/p".data, "?x=1".data⟩ "GET".data [] [] (.num 5) .noBody).path =
        urlPathname "/p?x=1".data ∧
      ¬ '?' ∈ (mkRequest ⟨"x".data, "/p".data, "?x=1".data⟩ "GET".data [] [] (.num 5) .noBody).path) := by
  refine ⟨by decide, by decide, ?_⟩
  exact C9_url_query_discarded rfNone "x".data "/p?x=1".data "GET".data [] (.num 5)
    _ (by decide) (by decide)

/-! ### Header-coerce lemmas -/

/-- The lowercased key a header string contributes, when it has a colon. -/
def headKeyOf (h : Str) : Option Str :=
  (splitFirst ':' h).map (fun p => toLowerStr p.1)

/-- Number of occurrences of a warning line in the printed warnings. -/
def countOcc (x : Str) (l : List Str) : Nat :=
  (l.filter (fun y => y = x)).length

theorem countOcc_append (x : Str) (l l' : List Str) :
    countOcc x (l ++ l') = countOcc x l + countOcc x l' := by
  simp [countOcc, List.filter_append]

theorem countOcc_singleton_self (x : Str) : countOcc x [x] = 1 := by
  simp [countOcc]

theorem countOcc_singleton_ne (x y : Str) (h : y ≠ x) : countOcc x [y] = 0 := by
  simp [countOcc, h]

theorem splitFirst_append (sep : Char) (k v : Str) (hk : ¬ sep ∈ k) :
    splitFirst sep (k ++ (sep :: v)) = some (k, v) := by
  induction k with
  | nil => simp [splitFirst]
  | cons c cs ih =>
    have hc : ¬ c = sep := fun h => hk (by simp [h])
    have hcs : ¬ sep ∈ cs := fun h => hk (by simp [h])
    simp [splitFirst, hc, ih hcs]

theorem warnInvalidHeader_ne_overwrite (h k : Str) :
    warnInvalidHeader h ≠ warnOverwriteHeader k := by
  intro he
  have h1 : (warnInvalidHeader h).head? = some 'I' := rfl
  have h2 : (warnOverwriteHeader k).head? = some 'O' := rfl
  rw [he, h2] at h1
  simp at h1

theorem warnOverwriteHeader_inj {k k' : Str}
    (he : warnOverwriteHeader k = warnOverwriteHeader k') : k = k' := by
  have hd := congrArg (List.drop ("Overwriting header key for ".data.length)) he
  simpa [warnOverwriteHeader, List.drop_left] using hd

/-- A header string whose (lowercased) key is not `k` neither changes the
lookup of `k` nor adds an overwrite warning for `k`. -/
theorem headerStep_preserve (acc : Map × List Str) (h k : Str)
    (hne : headKeyOf h ≠ some k) :
    getKey k (headerStep acc h).1 = getKey k acc.1 ∧
    countOcc (warnOverwriteHeader k) (headerStep acc h).2 =
      countOcc (warnOverwriteHeader k) acc.2 := by
  unfold headerStep
  cases hsp : splitFirst ':' h with
  | none =>
    refine ⟨rfl, ?_⟩
    rw [countOcc_append,
      countOcc_singleton_ne _ _ (warnInvalidHeader_ne_overwrite h k),
      Nat.add_zero]
  | some kv =>
    obtain ⟨k0, v⟩ := kv
    have hkne : ¬ toLowerStr k0 = k := by
      intro he
      exact hne (by simp [headKeyOf, hsp, he])
    have hget : getKey k (setKey (toLowerStr k0) v acc.1) = getKey k acc.1 :=
      getKey_setKey_ne (toLowerStr k0) k v acc.1 (fun he => hkne he.symm)
    by_cases hp : (getKey (toLowerStr k0) acc.1).isSome = true
    · refine ⟨by simp [hp, hget], ?_⟩
      simp only [hp, if_true]
      rw [countOcc_append,
        countOcc_singleton_ne _ _ (fun he => hkne (warnOverwriteHeader_inj he)),
        Nat.add_zero]
    · exact ⟨by simp [hp, hget], by simp [hp]⟩

/-- Processing a run of header strings none of which has key `k` leaves both
the lookup of `k` and the number of overwrite warnings for `k` unchanged. -/
theorem foldl_headerStep_preserve (l : List Str) (k : Str)
    (hl : ∀ h ∈ l, headKeyOf h ≠ some k) : ∀ acc : Map × List Str,
    getKey k (l.foldl headerStep acc).1 = getKey k acc.1 ∧
    countOcc (warnOverwriteHeader k) (l.foldl headerStep acc).2 =
      countOcc (warnOverwriteHeader k) acc.2 := by
  induction l with
  | nil => intro acc; exact ⟨rfl, rfl⟩
  | cons h rest ih =>
    intro acc
    rw [List.foldl_cons]
    have hstep := headerStep_preserve acc h k (hl h (by simp))
    have hrest := ih (fun x hx => hl x (by simp [hx])) (headerStep acc h)
    exact ⟨hrest.1.trans hstep.1, hrest.2.trans hstep.2⟩

/-- A well-formed header string whose key is absent is inserted without a
warning. -/
theorem headerStep_insert (acc : Map × List Str) (kraw v : Str)
    (hk : ¬ ':' ∈ kraw) (habs : getKey (toLowerStr kraw) acc.1 = none) :
    headerStep acc (kraw ++ (':' :: v)) =
      (setKey (toLowerStr kraw) v acc.1, acc.2) := by
  unfold headerStep
  rw [splitFirst_append ':' kraw v hk]
  simp [habs]

/-- A well-formed header string whose key is already present overwrites it
and emits exactly one overwrite warning. -/
theorem headerStep_overwrite (acc : Map × List Str) (kraw v : Str)
    (hk : ¬ ':' ∈ kraw) (hpres : (getKey (toLowerStr kraw) acc.1).isSome = true) :
    headerStep acc (kraw ++ (':' :: v)) =
      (setKey (toLowerStr kraw) v acc.1,
        acc.2 ++ [warnOverwriteHeader (toLowerStr kraw)]) := by
  unfold headerStep
  rw [splitFirst_append ':' kraw v hk]
  simp [hpres]

/-- C8: in a header list containing `k1:v1` and, later, `k2:v2` — the two
keys equal up to letter case, no other entry carrying that key — the final
mapping sends the lowercased key to `v2`, and exactly one overwrite warning
was printed for it. -/
theorem C8_header_overwrite (l1 l2 l3 : List Str) (k1 k2 v1 v2 k : Str)
    (hk1 : ¬ ':' ∈ k1) (hk2 : ¬ ':' ∈ k2)
    (hlow1 : toLowerStr k1 = k) (hlow2 : toLowerStr k2 = k)
    (hothers : ∀ h ∈ l1 ++ l2 ++ l3, headKeyOf h ≠ some k) :
    getKey k (parseHeaders
        (l1 ++ ((k1 ++ (':' :: v1)) :: (l2 ++ ((k2 ++ (':' :: v2)) :: l3))))).1 =
      some v2 ∧
    countOcc (warnOverwriteHeader k) (parseHeaders
        (l1 ++ ((k1 ++ (':' :: v1)) :: (l2 ++ ((k2 ++ (':' :: v2)) :: l3))))).2 =
      1 := by
  subst hlow1
  have ho1 : ∀ h ∈ l1, headKeyOf h ≠ some (toLowerStr k1) :=
    fun h hh => hothers h (by simp [hh])
  have ho2 : ∀ h ∈ l2, headKeyOf h ≠ some (toLowerStr k1) :=
    fun h hh => hothers h (by simp [hh])
  have ho3 : ∀ h ∈ l3, headKeyOf h ≠ some (toLowerStr k1) :=
    fun h hh => hothers h (by simp [hh])
  unfold parseHeaders
  rw [List.foldl_append, List.foldl_cons]
  have h1 := foldl_headerStep_preserve l1 (toLowerStr k1) ho1 ([], [])
  set acc1 := List.foldl headerStep ([], []) l1 with hacc1
  have habs1 : getKey (toLowerStr k1) acc1.1 = none := h1.1
  rw [headerStep_insert acc1 k1 v1 hk1 habs1]
  set acc2 : Map × List Str := (setKey (toLowerStr k1) v1 acc1.1, acc1.2) with hacc2
  rw [List.foldl_append, List.foldl_cons]
  have h2 := foldl_headerStep_preserve l2 (toLowerStr k1) ho2 acc2
  set acc3 := List.foldl headerStep acc2 l2 with hacc3
  have hget3 : getKey (toLowerStr k1) acc3.1 = some v1 := by
    rw [h2.1]
    exact getKey_setKey_self (toLowerStr k1) v1 acc1.1
  have hpres3 : (getKey (toLowerStr k2) acc3.1).isSome = true := by
    rw [hlow2, hget3]
    rfl
  rw [headerStep_overwrite acc3 k2 v2 hk2 hpres3]
  have h3 := foldl_headerStep_preserve l3 (toLowerStr k1) ho3
    (setKey (toLowerStr k2) v2 acc3.1,
      acc3.2 ++ [warnOverwriteHeader (toLowerStr k2)])
  refine ⟨h3.1.trans ?_, h3.2.trans ?_⟩
  · rw [hlow2]
    exact getKey_setKey_self (toLowerStr k1) v2 acc3.1
  · rw [countOcc_append, hlow2, countOcc_singleton_self, h2.2]
    have hc2 : countOcc (warnOverwriteHeader (toLowerStr k1)) acc2.2 = 0 := h1.2
    rw [hc2]

/-- Witness for C8: `["Key:v1", "other:1", "key:v2"]`; the final mapping has
`key → v2` and the overwrite warning for `key` was printed once. -/
theorem C8_witness :
    (¬ ':' ∈ "Key".data) ∧ (¬ ':' ∈ "key".data) ∧
    toLowerStr "Key".data = "key".data ∧ toLowerStr "key".data = "key".data ∧
    (∀ h ∈ ([] : List Str) ++ ["other:1".data] ++ [],
      headKeyOf h ≠ some "key".data) ∧
    (getKey "key".data (parseHeaders
        ([] ++ (("Key".data ++ (':' :: "v1".data)) ::
          (["other:1".data] ++ (("key".data ++ (':' :: "v2".data)) :: []))))).1 =
      some "v2".data ∧
    countOcc (warnOverwriteHeader "key".data) (parseHeaders
        ([] ++ (("Key".data ++ (':' :: "v1".data)) ::
          (["other:1".data] ++ (("key".data ++ (':' :: "v2".data)) :: []))))).2 =
      1) := by
  refine ⟨by decide, by decide, by decide, by decide, by decide, ?_⟩
  exact C8_header_overwrite [] ["other:1".data] [] "Key".data "key".data
    "v1".data "v2".data "key".data (by decide) (by decide) (by decide)
    (by decide) (by decide)

/-- Two or more of the mutually exclusive body options `data` / `json` /
`file` were supplied on the command line. -/
def atLeastTwo (argv : Argv) : Prop :=
  (argv.data.isSome = true ∧ argv.json.isSome = true) ∨
  (argv.data.isSome = true ∧ argv.file.isSome = true) ∨
  (argv.json.isSome = true ∧ argv.file.isSome = true)

theorem runChecks_conflict (pu : Str → Option Url) (rf : Str → Option (List Nat))
    (jo : Str → Bool) (argv : Argv) (h2 : atLeastTwo argv)
    (hok : urlCheck pu argv.positional = .ok ()) :
    runChecks pu rf jo argv = .error .conflictingOptions := by
  rw [runChecks, hok]
  rcases h2 with ⟨hd, hj⟩ | ⟨hd, hf⟩ | ⟨hj, hf⟩
  · have hdc : dataCheck argv.data argv.json argv.file = .error .conflictingOptions := by
      unfold dataCheck
      rw [if_pos ⟨hd, Or.inl hj⟩]
    rw [hdc]
  · have hdc : dataCheck argv.data argv.json argv.file = .error .conflictingOptions := by
      unfold dataCheck
      rw [if_pos ⟨hd, Or.inr hf⟩]
    rw [hdc]
  · by_cases hd : argv.data.isSome = true
    · have hdc : dataCheck argv.data argv.json argv.file = .error .conflictingOptions := by
        unfold dataCheck
        rw [if_pos ⟨hd, Or.inl hj⟩]
      rw [hdc]
    · have hdn : argv.data = none := by
        cases h : argv.data
        · rfl
        · exact absurd (by simp [h]) hd
      have hdc : dataCheck argv.data argv.json argv.file = .ok [] := by
        unfold dataCheck
        rw [if_neg (by simp [hdn]), hdn]
      have hjc : jsonCheck jo argv.data argv.json argv.file = .error .conflictingOptions := by
        unfold jsonCheck
        rw [if_pos ⟨hj, Or.inr hf⟩]
      rw [hdc, hjc]

/-- C3: supplying any two or more of `data`, `json`, `file` makes the
invocation fail — `runInvocation` produces a validation error rather than a
request, so nothing goes on the wire — and whenever the URL argument itself
is accepted the error is precisely `ConflictingOptions`. -/
theorem C3_conflicting_options (pu : Str → Option Url)
    (rf : Str → Option (List Nat)) (jo : Str → Bool) (argv : Argv)
    (h2 : atLeastTwo argv) :
    (∃ e, runInvocation pu rf jo argv = .error e) ∧
    (∀ a u, argv.positional = [a] → pu a = some u →
      runInvocation pu rf jo argv = .error .conflictingOptions) := by
  constructor
  · cases hurl : urlCheck pu argv.positional with
    | error e =>
      refine ⟨e, ?_⟩
      rw [runInvocation, runChecks, hurl]
    | ok u =>
      cases u
      refine ⟨.conflictingOptions, ?_⟩
      rw [runInvocation, runChecks_conflict pu rf jo argv h2 hurl]
  · intro a u hpos hpu
    have hok : urlCheck pu argv.positional = .ok () := by
      rw [hpos, urlCheck, hpu]
    rw [runInvocation, runChecks_conflict pu rf jo argv h2 hok]

/-- Witness for C3: `--data a=1 --json 1` on a valid URL; the hypotheses are
discharged by computation at the concrete invocation. -/
theorem C3_witness :
    atLeastTwo argvConflict ∧
    ((∃ e, runInvocation puX rfNone joTrue argvConflict = .error e) ∧
      (∀ a u, argvConflict.positional = [a] → puX a = some u →
        runInvocation puX rfNone joTrue argvConflict =
          .error .conflictingOptions)) := by
  refine ⟨Or.inl ⟨rfl, rfl⟩, ?_⟩
  exact C3_conflicting_options puX rfNone joTrue argvConflict
    (Or.inl ⟨rfl, rfl⟩)

/-- C7: with `--queries "a=1&b=2"` and URL path `/search`, the constructed
request path is `/search?a=1&b=2`. -/
theorem C7_query_path :
    buildPath "/search".data (parseQueries ["a=1&b=2".data]).1 =
      "/search?a=1&b=2".data := by
  decide

/-- C5: for every request with a body source set, a GET request never gets
an auto-populated `content-length` (the lookup is unchanged from the
user-supplied headers), while a non-GET request whose user headers lack
`content-length` gets exactly the byte length of the serialized body that
goes on the wire. -/
theorem C5_content_length_default (rf : Str → Option (List Nat)) (u : Url)
    (method : Str) (h0 : Map) (q : Map) (body json filePath : Option Str)
    (t : JsNum) (req : Request)
    (hsend : sendRequest rf u method h0 q body json filePath t = some req)
    (hactive : truthy body ∨ truthy json ∨ truthy filePath) :
    (method = "GET".data →
      getKey contentLengthKey req.headers = getKey contentLengthKey h0) ∧
    (method ≠ "GET".data → getKey contentLengthKey h0 = none →
      getKey contentLengthKey req.headers =
          some (natToStr (payloadByteLen req.payload)) ∧
        req.payload ≠ .noBody) := by
  by_cases hb : truthy body
  · rw [sendRequest, if_pos hb] at hsend
    obtain rfl := Option.some.inj hsend
    have hd := defaulted_contentLength h0 method
      "application/x-www-form-urlencoded".data (utf8Bytes (body.getD [])).length
    exact ⟨hd.1, fun hm hn => ⟨hd.2 hm hn, by simp [mkRequest]⟩⟩
  · by_cases hj : truthy json
    · rw [sendRequest, if_neg hb, if_pos hj] at hsend
      obtain rfl := Option.some.inj hsend
      have hd := defaulted_contentLength h0 method
        "application/json".data (utf8Bytes (json.getD [])).length
      exact ⟨hd.1, fun hm hn => ⟨hd.2 hm hn, by simp [mkRequest]⟩⟩
    · by_cases hf : truthy filePath
      · rw [sendRequest, if_neg hb, if_neg hj, if_pos hf] at hsend
        cases hrf : rf (filePath.getD []) with
        | none => rw [hrf] at hsend; exact absurd hsend (by simp)
        | some fb =>
          rw [hrf] at hsend
          obtain rfl := Option.some.inj hsend
          have hd := defaulted_contentLength h0 method
            "application/octet-stream".data fb.length
          exact ⟨hd.1, fun hm hn => ⟨hd.2 hm hn, by simp [mkRequest]⟩⟩
      · rcases hactive with h | h | h
        · exact absurd h hb
        · exact absurd h hj
        · exact absurd h hf

/-- Witness for C5: a POST with a JSON body `ab` and no user headers gets
`content-length: 2`; the request value is computed explicitly. -/
theorem C5_witness :
    sendRequest rfNone ⟨"x".data, "/p".data, []⟩ "POST".data [] [] none
        (some "ab".data) none .undef =
      some (mkRequest ⟨"x".data, "/p".data, []⟩ "POST".data
        [(contentTypeKey, "application/json".data),
          (contentLengthKey, natToStr 2)] [] .undef (.str "ab".data)) ∧
    (("POST".data : Str) = "GET".data →
      getKey contentLengthKey (mkRequest ⟨"x".data, "/p".data, []⟩ "POST".data
        [(contentTypeKey, "application/json".data),
          (contentLengthKey, natToStr 2)] [] .undef (.str "ab".data)).headers =
        getKey contentLengthKey []) ∧
    (("POST".data : Str) ≠ "GET".data → getKey contentLengthKey [] = none →
      getKey contentLengthKey (mkRequest ⟨"x".data, "/p".data, []⟩ "POST".data
        [(contentTypeKey, "application/json".data),
          (contentLengthKey, natToStr 2)] [] .undef (.str "ab".data)).headers =
          some (natToStr (payloadByteLen (mkRequest ⟨"x".data, "/p".data, []⟩
            "POST".data [(contentTypeKey, "application/json".data),
              (contentLengthKey, natToStr 2)] [] .undef
            (.str "ab".data)).payload)) ∧
        (mkRequest ⟨"x".data, "/p".data, []⟩ "POST".data
          [(contentTypeKey, "application/json".data),
            (contentLengthKey, natToStr 2)] [] .undef
          (.str "ab".data)).payload ≠ .noBody) := by
  refine ⟨by decide, ?_⟩
  exact C5_content_length_default rfNone ⟨"x".data, "/p".data, []⟩ "POST".data
    [] [] none (some "ab".data) none .undef _ (by decide) (by decide)

/-- C6: with the JSON string as active body source (no `data`, truthy
`json`) and no user-supplied `content-type`, the issued request carries
`content-type: application/json`, its write payload is exactly the JSON
string, and the bytes on the wire are that string's UTF-8 encoding. -/
theorem C6_json_content_type (rf : Str → Option (List Nat)) (u : Url)
    (method : Str) (h0 : Map) (q : Map) (s : Str) (t : JsNum) (req : Request)
    (hs : s ≠ [])
    (hct : getKey contentTypeKey h0 = none)
    (hsend : sendRequest rf u method h0 q none (some s) none t = some req) :
    getKey contentTypeKey req.headers = some "application/json".data ∧
    req.payload = .str s ∧
    payloadBytes req.payload = utf8Bytes s := by
  have hj : truthy (some s) = true := by
    simp [truthy, List.isEmpty_iff, hs]
  rw [sendRequest, if_neg (by simp [truthy]), if_pos hj] at hsend
  obtain rfl := Option.some.inj hsend
  refine ⟨?_, by simp [mkRequest], by simp [mkRequest, payloadBytes]⟩
  show getKey contentTypeKey
    (setDefaultCL method (utf8Bytes ((some s).getD [])).length
      (setDefault contentTypeKey "application/json".data h0)) = _
  rw [getKey_setDefaultCL_ne _ method _ _ contentTypeKey_ne_contentLengthKey]
  unfold setDefault
  rw [if_neg (by simp [hct])]
  exact getKey_setKey_self contentTypeKey "application/json".data h0

/-- Witness for C6: the JSON string of the claim, `{"a":1}`, with no user
headers; the hypotheses are discharged by computation. -/
theorem C6_witness :
    ("\x7b\"a\":1\x7d".data : Str) ≠ [] ∧
    getKey contentTypeKey [] = none ∧
    sendRequest rfNone ⟨"x".data, "/p".data, []⟩ "GET".data [] [] none
        (some "\x7b\"a\":1\x7d".data) none .undef =
      some (mkRequest ⟨"x".data, "/p".data, []⟩ "GET".data
        [(contentTypeKey, "application/json".data)] [] .undef
        (.str "\x7b\"a\":1\x7d".data)) ∧
    (getKey contentTypeKey (mkRequest ⟨"x".data, "/p".data, []⟩ "GET".data
        [(contentTypeKey, "application/json".data)] [] .undef
        (.str "\x7b\"a\":1\x7d".data)).headers =
        some "application/json".data ∧
      (mkRequest ⟨"x".data, "/p".data, []⟩ "GET".data
        [(contentTypeKey, "application/json".data)] [] .undef
        (.str "\x7b\"a\":1\x7d".data)).payload = .str "\x7b\"a\":1\x7d".data ∧
      payloadBytes (mkRequest ⟨"x".data, "/p".data, []⟩ "GET".data
        [(contentTypeKey, "application/json".data)] [] .undef
        (.str "\x7b\"a\":1\x7d".data)).payload =
        utf8Bytes "\x7b\"a\":1\x7d".data) := by
  refine ⟨by decide, by decide, by decide, ?_⟩
  exact C6_json_content_type rfNone ⟨"x".data, "/p".data, []⟩ "GET".data [] []
    "\x7b\"a\":1\x7d".data .undef _ (by decide) (by decide) (by decide)

end Nurl
